import Mathlib

/-!
Shallow embedding of the `forwardingtool` repository (Python) for checking its
natural-language specification.

Modelled sources:
* `src/forwardingtool/config.py` — `is_port`, `is_hostname` (with the regex
  `(\d{1,3})\.(\d{1,3})\.(\d{1,3})\.(\d{1,3})` modelled explicitly),
  `ForwardedPort`, `Config` (`validate`, `__str__`, `from_cmd`).
* `src/forwardingtool/connector.py` — `load_key` (paramiko / keyring / prompt
  interactions abstracted into an explicit `World` of oracle answers).
* `src/forwardingtool/views.py` — `App.check_connection` / `App.on_disconnect`
  (liveness polling loop, modelled as a step function on the app state).

Filesystem- and OS-dependent primitives (`os.path.isfile`, `expandpath`) are
abstracted into an `Env` record of functions, passed explicitly.
-/

namespace Forwardingtool

/-- Environment abstraction: `expandpath` (expanduser/expandvars/normcase) and
`os.path.isfile`, which depend on the OS and filesystem. -/
structure Env where
  expandpath : String → String
  isfile : String → Bool

/-- Model of `is_port` from config.py: error unless `0 <= value <= 65535`. -/
def is_port (value : Int) : Except String Unit :=
  if 0 ≤ value ∧ value ≤ 65535 then .ok ()
  else .error (toString value ++ " is not a valid port number. Must be within 0 to 65535")

/-- The remainders of `cs` after consuming `\d{n}` for `n` in 1..3, i.e. the
possible continuations of one regex group `(\d{1,3})`. -/
def matchOct (cs : List Char) : List (List Char) :=
  [1, 2, 3].filterMap (fun n =>
    if (cs.take n).length == n && (cs.take n).all Char.isDigit
    then some (cs.drop n) else none)

/-- Consume a literal dot, as in the `\.` pieces of the IPv4 pattern. -/
def consumeDot : List Char → Option (List Char)
  | '.' :: rest => some rest
  | _ => none

/-- Does some prefix of `cs` match `(\d{1,3})\.(\d{1,3})\.(\d{1,3})\.(\d{1,3})`
(for some backtracking choice of the group lengths)? -/
def matchQuadFrom (cs : List Char) : Bool :=
  ((matchOct cs).filterMap consumeDot).any (fun r2 =>
    ((matchOct r2).filterMap consumeDot).any (fun r3 =>
      ((matchOct r3).filterMap consumeDot).any (fun r4 =>
        !(matchOct r4).isEmpty)))

/-- Model of `IPV4PAT.search(s)`: the pattern matches at some position of `s`. -/
def ipv4Search (s : String) : Bool :=
  (List.range (s.toList.length + 1)).any (fun i => matchQuadFrom (s.toList.drop i))

/-- Model of `IPV4PAT.fullmatch(s)`: the whole string matches the pattern. -/
def ipv4Fullmatch (s : String) : Bool :=
  ((matchOct s.toList).filterMap consumeDot).any (fun r2 =>
    ((matchOct r2).filterMap consumeDot).any (fun r3 =>
      ((matchOct r3).filterMap consumeDot).any (fun r4 =>
        (matchOct r4).any List.isEmpty)))

/-- Split a character list at every occurrence of a dot. -/
def splitDots : List Char → List (List Char)
  | [] => [[]]
  | c :: cs =>
    if c == '.' then [] :: splitDots cs
    else
      match splitDots cs with
      | g :: gs => (c :: g) :: gs
      | [] => [[c]]

/-- Model of `int()` on a run of decimal digits. -/
def digitsToNat (cs : List Char) : Nat :=
  cs.foldl (fun n c => 10 * n + (c.toNat - 48)) 0

/-- The integer values of the four groups of a full match
(`[int(i) for i in fullmatch.groups()]`). A full match of the pattern splits
the string at its (exactly three) dots, and each group is a digit-only run,
so the groups are exactly the dot-separated fields. -/
def ipv4Groups (s : String) : List Nat :=
  (splitDots s.toList).map digitsToNat

/-- Model of `is_hostname` from config.py: empty strings are rejected; if the IPv4
pattern is found anywhere in the string, the string must be a full IPv4
literal with all octets at most 255; anything else is accepted. -/
def is_hostname (s : String) : Except String Unit :=
  if s = "" then .error "Remote hostname must not be empty"
  else if ipv4Search s then
    if ipv4Fullmatch s then
      if (ipv4Groups s).any (fun x => 255 < x)
      then .error (s ++ " is not not a valid IPv4 address")
      else .ok ()
    else .error (s ++ " is not not a valid IPv4 address")
  else .ok ()

/-- The `ForwardedPort` dataclass from config.py. -/
structure ForwardedPort where
  local_port : Int
  hostname : String
  remote_port : Int
  label : String := ""
  deriving DecidableEq

/-- Model of `ForwardedPort.validate`. -/
def ForwardedPort.validate (f : ForwardedPort) : Except String Unit :=
  match is_hostname f.hostname with
  | .error e => .error e
  | .ok _ =>
    match is_port f.remote_port with
    | .error e => .error e
    | .ok _ =>
      match is_port f.local_port with
      | .error e => .error e
      | .ok _ =>
        if f.label ≠ "" ∧ ¬ (f.label.toList.all fun c => !c.isWhitespace || c == ' ')
        then .error "Label must be printable"
        else .ok ()

/-- Model of `ForwardedPort.__str__`: `local_port:hostname:remote_port`. -/
def ForwardedPort.toStr (f : ForwardedPort) : String :=
  toString f.local_port ++ ":" ++ f.hostname ++ ":" ++ toString f.remote_port

/-- The `Config` dataclass from config.py. -/
structure Config where
  jump_host : String
  username : String := ""
  jump_port : Int := 22
  key : Option String := none
  forwardings : List ForwardedPort := []
  deriving DecidableEq

/-- Model of `Config.validate` from config.py: checks the jump host name, the jump
port, that a non-empty username is alphanumeric, and that a non-`None` key
path names an existing file. It performs no check on `forwardings`. -/
def Config.validate (env : Env) (c : Config) : Except String Unit :=
  match is_hostname c.jump_host with
  | .error e => .error e
  | .ok _ =>
    match is_port c.jump_port with
    | .error e => .error e
    | .ok _ =>
      if c.username ≠ "" ∧ ¬ (c.username.toList.all Char.isAlphanum)
      then .error (c.username ++ " is not an alphanumeric username")
      else
        match c.key with
        | some k =>
          if env.isfile (env.expandpath k) then .ok ()
          else .error ("Public key file " ++ env.expandpath k ++ " not found")
        | none => .ok ()

/-- Model of `Config.__str__` from config.py. `if self.username` and `if self.key` are
Python truthiness: the empty string and `None` are falsy. -/
def Config.toStr (env : Env) (c : Config) : String :=
  "ssh "
    ++ (if c.username ≠ "" then c.username ++ "@" else "")
    ++ c.jump_host
    ++ (if c.jump_port ≠ 22 then " -p " ++ toString c.jump_port else "")
    ++ (match c.key with
        | some k => if k ≠ "" then " -i " ++ env.expandpath k else ""
        | none => "")
    ++ String.join (c.forwardings.map (fun f => " -L " ++ f.toStr))
    ++ " -N"

/-- Is `.ok`? (decidable success observer for `Except`). -/
def exceptOk : Except String Unit → Bool
  | .ok _ => true
  | .error _ => false

/-- Two forwardings share a `local_port` value. -/
def hasDupLocalPorts : List ForwardedPort → Bool
  | [] => false
  | f :: rest => (rest.any fun g => g.local_port == f.local_port) || hasDupLocalPorts rest

/-- A concrete environment: identity path expansion, no file exists. -/
def env0 : Env := ⟨fun s => s, fun _ => false⟩

/-- A concrete environment in which exactly `/keys/id_rsa` exists. -/
def env1 : Env := ⟨fun s => s, fun s => s == "/keys/id_rsa"⟩

/-! ## connector.py: `load_key` -/

/-- Abstract handle for a `paramiko.RSAKey` object. -/
structure RSAKey where
  id : Nat
  deriving DecidableEq

/-- Outcome of `paramiko.RSAKey.from_private_key_file(keyfile, password=pwd)`:
success, `PasswordRequiredException` (encrypted key, no password given), or a
plain `SSHException` (malformed key, or wrong password). -/
inductive ParseResult where
  | ok (key : RSAKey)
  | passwordRequired
  | sshError
  deriving DecidableEq

/-- Outcome of `keyring.get_password(APP, keyfile)`: a stored password, `None`,
or a raised `NoKeyringError` / `KeyringLocked`. -/
inductive KeyringGet where
  | found (pwd : String)
  | absent
  | unavailable
  deriving DecidableEq

/-- Outcome of `keyring.set_password`: returns, or raises
`NoKeyringError` / `KeyringLocked`. -/
inductive KeyringSet where
  | success
  | unavailable
  deriving DecidableEq

/-- One answer of the `PasswordDialog`: the user aborted, or entered `s`. -/
inductive PromptAnswer where
  | abort
  | pwd (s : String)
  deriving DecidableEq

/-- The external world `load_key` interacts with, for one fixed key file:
the behaviour of the key file under each candidate password, the keyring
lookup outcome, the keyring store outcome, and the dialog answers (the answer
to the i-th prompt). -/
structure World where
  fromPrivateKeyFile : Option String → ParseResult
  keyringGet : KeyringGet
  keyringSet : KeyringSet
  prompts : Nat → PromptAnswer

/-- Observable outcome of `load_key`: the returned key (`None` on failure),
how many times the password dialog was shown, what (if anything) ended up
stored in the keyring, and how many times `keyring.get_password` was called. -/
structure LoadKeyResult where
  key : Option RSAKey
  promptCalls : Nat
  stored : Option String
  keyringGetCalls : Nat
  deriving DecidableEq

/-- Model of `keyring.set_password(APP, keyfile, p)` wrapped in
`try: ... except (NoKeyringError, KeyringLocked): pass` — the raise is
swallowed; returns what is now stored in the keyring. -/
def setPasswordCaught (w : World) (p : String) : Option String :=
  match w.keyringSet with
  | .success => some p
  | .unavailable => none

/-- The `for _ in range(3)` prompt loop of `load_key`. `fuel` is the number of
remaining iterations, `calls` the number of prompts already made, `kg` the
number of keyring lookups already made. Each iteration shows the dialog; on
abort it breaks with no key; on a password it retries the key file, breaking
with the key (after a best-effort keyring store) on success and looping on
any `SSHException`. -/
def promptLoop (w : World) : Nat → Nat → Nat → LoadKeyResult
  | 0, calls, kg => ⟨none, calls, none, kg⟩
  | fuel + 1, calls, kg =>
    match w.prompts calls with
    | .abort => ⟨none, calls + 1, none, kg⟩
    | .pwd p =>
      match w.fromPrivateKeyFile (some p) with
      | .ok k => ⟨some k, calls + 1, setPasswordCaught w p, kg⟩
      | _ => promptLoop w fuel (calls + 1) kg

/-- Model of `load_key` from connector.py. First tries the key without a password; a
`PasswordRequiredException` routes through the keyring (`get_password`, whose
`None` result is passed straight back to `from_private_key_file` as
`password=None`), falling back to the 3-attempt prompt loop; a plain
`SSHException` (malformed key) returns `None` immediately. -/
def load_key (w : World) : LoadKeyResult :=
  match w.fromPrivateKeyFile none with
  | .ok k => ⟨some k, 0, none, 0⟩
  | .sshError => ⟨none, 0, none, 0⟩
  | .passwordRequired =>
    match w.keyringGet with
    | .unavailable => promptLoop w 3 0 1
    | .found p =>
      match w.fromPrivateKeyFile (some p) with
      | .ok k => ⟨some k, 0, none, 1⟩
      | _ => promptLoop w 3 0 1
    | .absent =>
      match w.fromPrivateKeyFile none with
      | .ok k => ⟨some k, 0, none, 1⟩
      | _ => promptLoop w 3 0 1

/-- No usable cached secret: either the keyring raised, or it had no entry, or
the stored password does not decrypt the key. -/
def noUsableCache (w : World) : Prop :=
  match w.keyringGet with
  | .found p => ∀ k, w.fromPrivateKeyFile (some p) ≠ .ok k
  | _ => True

/-! ## views.py: liveness polling (`App.check_connection` / `App.on_disconnect`) -/

/-- Abstract `sshtunnel.SSHTunnelForwarder` handle: its `is_alive` property as
observed at the current poll. -/
structure TunnelConn where
  is_alive : Bool
  deriving DecidableEq

/-- The slice of `App` state the polling loop touches: the current connection
(`self.connection`), a count of `connection.stop()` calls, and whether the
start button is configured as `Start` (rather than `Disconnect`). -/
structure AppState where
  connection : Option TunnelConn
  stopCalls : Nat
  buttonIsStart : Bool
  deriving DecidableEq

/-- Model of `App.on_disconnect`: if a connection exists, stop it and clear
`self.connection`; in any case reconfigure the button back to `Start`. -/
def App.on_disconnect (s : AppState) : AppState :=
  match s.connection with
  | some _ => ⟨none, s.stopCalls + 1, true⟩
  | none => { s with buttonIsStart := true }

/-- Result of one `App.check_connection` callback run: the new state and the
delay (ms) of the rescheduled poll, if one was scheduled via `self.after`. -/
structure CheckResult where
  state : AppState
  reschedAfterMs : Option Nat
  deriving DecidableEq

/-- Model of `App.check_connection`: no-op without a connection; while the tunnel is
alive, reschedule itself after a fixed 100 ms; once it is not alive, run
`on_disconnect` and do not reschedule. -/
def App.check_connection (s : AppState) : CheckResult :=
  match s.connection with
  | none => ⟨s, none⟩
  | some c => if c.is_alive then ⟨s, some 100⟩ else ⟨App.on_disconnect s, none⟩

/-- Controller-level liveness query, as in `App.on_close`:
`self.connection is not None and self.connection.is_alive`. -/
def App.aliveQuery (s : AppState) : Bool :=
  match s.connection with
  | some c => c.is_alive
  | none => false

/-! ## config.py: `Config.from_cmd`

`from_cmd` builds an `argparse.ArgumentParser` with positionals `cmd` and
`user_host` and options `-i VALUE`, `-L VALUE` (append), `-p INT`
(default 22), `-N` (flag), runs `parse_known_args` on
`shlex.split(cmd, posix=False)`, and then iterates `args.L`.

`shlex.split(cmd, posix=False)` is modelled as whitespace tokenization.
Quoted groupings are not modelled: a token whose quoting was stripped here
would begin with a quote character, which argparse never reads as an option,
and a token merged across quoted whitespace begins with the same characters
as its first whitespace-delimited chunk, so the recognition of `-L` options
reasoned about below is unaffected.
-/

/-- Split a character list at every whitespace character. -/
def wsSplit : List Char → List (List Char)
  | [] => [[]]
  | c :: cs =>
    if c.isWhitespace then [] :: wsSplit cs
    else
      match wsSplit cs with
      | g :: gs => (c :: g) :: gs
      | [] => [[c]]

/-- Model of `shlex.split(cmd, posix=False)` as whitespace tokenization. -/
def shlexSplit (cmd : String) : List String :=
  ((wsSplit cmd.toList).map String.mk).filter (fun t => t ≠ "")

/-- Model of `int()` on a string: an optional sign followed by a non-empty run of
decimal digits (whitespace stripping and underscore grouping not modelled). -/
def pyInt? (s : String) : Option Int :=
  let signed : List Char → Option Int := fun cs =>
    if cs ≠ [] && cs.all Char.isDigit then some ((digitsToNat cs : Nat) : Int) else none
  match s.toList with
  | '-' :: rest => (signed rest).map (fun n => -n)
  | '+' :: rest => signed rest
  | cs => signed cs

/-- Accumulated `argparse` state. `err` records that the parser raised
(`parser.error` → `SystemExit`), e.g. a missing option value or a bad `int`. -/
structure ParsedArgs where
  positionals : List String := []
  i : Option String := none
  L : Option (List String) := none
  p : Int := 22
  N : Bool := false
  unknown : List String := []
  err : Bool := false
  deriving DecidableEq

/-- Model of the argparse negative-number test `^-\d+$` (this parser has no digit-like
option strings, so such tokens are read as positionals, not options). -/
def isNegNumber (t : String) : Bool :=
  match t.toList with
  | '-' :: rest => rest ≠ [] && rest.all Char.isDigit
  | _ => false

/-- Does a token look like an option? argparse refuses to consume such a
token as the value of a preceding option. -/
def looksLikeOption (t : String) : Bool :=
  match t.toList with
  | '-' :: _ :: _ => !(isNegNumber t)
  | _ => false

/-- Record the value `v` for single-character option `c` (one of `i`, `L`,
`p`): `-i` stores, `-L` appends, `-p` parses an `int` (parser error if that
fails). -/
def ParsedArgs.setOpt (a : ParsedArgs) (c : Char) (v : String) : ParsedArgs :=
  if c == 'i' then { a with i := some v }
  else if c == 'L' then { a with L := some (a.L.getD [] ++ [v]) }
  else
    match pyInt? v with
    | some n => { a with p := n }
    | none => { a with err := true }

/-- Result of consuming the characters of one `-...` token whose first
character is a known option: either the token is fully handled, or a
value-taking option still needs its value from the next token. -/
inductive ShortResult where
  | done (a : ParsedArgs)
  | needValue (a : ParsedArgs) (c : Char)
  deriving DecidableEq

/-- Consume the characters after `-` of an option token: a run of `N` flags
followed optionally by one value-taking option (`i`/`L`/`p`) whose value is
the remaining characters, if any; a character that is no known option after a
consumed flag is a parser error ("ignored explicit argument"). -/
def consumeShort (a : ParsedArgs) : List Char → ShortResult
  | [] => .done a
  | c :: cs =>
    if c == 'N' then consumeShort { a with N := true } cs
    else if c == 'i' || c == 'L' || c == 'p' then
      match cs with
      | [] => .needValue a c
      | _ :: _ => .done (a.setOpt c (String.mk cs))
    else .done { a with err := true }

/-- What one token does: either it is fully handled (positional, extra,
attached-value option, flag run, or error), or a value-taking option still
needs the next token as its value. -/
inductive TokStep where
  | push (a : ParsedArgs)
  | need (a : ParsedArgs) (c : Char)
  deriving DecidableEq

/-- Classify and consume a single (non-`--`) token: tokens not starting with
`-`, the bare `-`, and negative numbers are positionals; a token starting
with a known option character is consumed by `consumeShort`; a token starting
with an unknown option character goes to the unrecognized extras of
`parse_known_args`. -/
def stepToken (a : ParsedArgs) (t : String) : TokStep :=
  match t.toList with
  | [] => .push { a with positionals := a.positionals ++ [t] }
  | c :: cs =>
    if c == '-' then
      match cs with
      | [] => .push { a with positionals := a.positionals ++ [t] }
      | c2 :: _ =>
        if isNegNumber t then .push { a with positionals := a.positionals ++ [t] }
        else if c2 == 'N' || c2 == 'i' || c2 == 'L' || c2 == 'p' then
          match consumeShort a cs with
          | .done a2 => .push a2
          | .needValue a2 oc => .need a2 oc
        else .push { a with unknown := a.unknown ++ [t] }
    else .push { a with positionals := a.positionals ++ [t] }

/-- The token-consumption loop of `parse_known_args` for this parser. `--`
makes everything after it positional; an option left needing a value takes
the next token unless that token looks like an option or is missing (a
parser error in both cases). -/
def parseLoop : List String → ParsedArgs → ParsedArgs
  | [], a => a
  | t :: ts, a =>
    if t == "--" then { a with positionals := a.positionals ++ ts }
    else
      match stepToken a t with
      | .push a2 => parseLoop ts a2
      | .need a2 oc =>
        match ts with
        | [] => { a2 with err := true }
        | v :: ts2 =>
          if looksLikeOption v then { a2 with err := true }
          else parseLoop ts2 (a2.setOpt oc v)

/-- Split a character list at the first occurrence of `c`
(Python `split(c, maxsplit=1)` when it finds a separator). -/
def splitFirst (c : Char) : List Char → Option (List Char × List Char)
  | [] => none
  | x :: xs =>
    if x == c then some ([], xs)
    else
      match splitFirst c xs with
      | some (a, b) => some (x :: a, b)
      | none => none

/-- One iteration of the `for f in args.L` loop:
`local_port, hostname, remote_port = f.split(':', maxsplit=2)` (a
`ValueError` if there are fewer than three parts), then `int()` on the two
ports (a `ValueError` if either fails). -/
def parseForwarding (f : String) : Except String ForwardedPort :=
  match splitFirst ':' f.toList with
  | none => .error "ValueError: not enough values to unpack"
  | some (a, r) =>
    match splitFirst ':' r with
    | none => .error "ValueError: not enough values to unpack"
    | some (b, c) =>
      match pyInt? (String.mk a), pyInt? (String.mk c) with
      | some lp, some rp => .ok ⟨lp, String.mk b, rp, ""⟩
      | _, _ => .error "ValueError: invalid literal for int"

/-- The `for f in args.L` loop over all collected `-L` values. -/
def parseForwardings : List String → Except String (List ForwardedPort)
  | [] => .ok []
  | f :: fs =>
    match parseForwarding f with
    | .error e => .error e
    | .ok fw =>
      match parseForwardings fs with
      | .error e => .error e
      | .ok fws => .ok (fw :: fws)

/-- Model of the split of `args.user_host` at the first `@` character into
`(username, jump_host)`; without an `@`, the username is empty and the whole
string is the jump host. -/
def splitUserHost (user_host : String) : String × String :=
  match splitFirst '@' user_host.toList with
  | some (u, h) => (String.mk u, String.mk h)
  | none => ("", user_host)

/-- Model of `Config.from_cmd` from config.py. After parsing, `user_host` is split at
the first `@` into username and jump host; then `args.L` is iterated — when
no `-L` option occurred, `args.L` is `None` and the iteration raises
`TypeError`; finally the instance is validated. -/
def Config.from_cmd (env : Env) (cmd : String) : Except String Config :=
  let a := parseLoop (shlexSplit cmd) {}
  if a.err then .error "SystemExit: argparse error"
  else
    match a.positionals with
    | _ :: user_host :: _ =>
      match a.L with
      | none => .error "TypeError: NoneType object is not iterable"
      | some fs =>
        match parseForwardings fs with
        | .error e => .error e
        | .ok fwds =>
          let c : Config :=
            ⟨(splitUserHost user_host).2, (splitUserHost user_host).1, a.p, a.i, fwds⟩
          match Config.validate env c with
          | .error e => .error e
          | .ok _ => .ok c
    | _ => .error "SystemExit: the following arguments are required"

/-- A run of `N` flag characters followed by `L` — the character shapes of an
option token that makes this parser collect an `-L` value. -/
def lAfterNs : List Char → Bool
  | [] => false
  | c :: cs => if c == 'N' then lAfterNs cs else c == 'L'

/-- Token-level test for "is an `-L` option occurrence": `-`, then a
(possibly empty) run of `N` flags, then `L`. -/
def isLActivating (t : String) : Bool :=
  match t.toList with
  | [] => false
  | c :: cs => c == '-' && lAfterNs cs

/-! ## Claim-side definitions and concrete instances used by witnesses -/

/-- The SSH command rendering as the spec claim words it: `ssh `, then
`username@` iff the username is non-empty, then the jump host, then
` -p <jump_port>` iff the jump port is not 22, then ` -i <expanded key path>`
iff a key is set, then one ` -L` segment per forwarding in order, ending in
` -N`. Differs from `Config.toStr` only in the key test (`key is set` vs
Python truthiness, which also drops an empty-string key). -/
def claimCmdString (env : Env) (c : Config) : String :=
  "ssh "
    ++ (if c.username ≠ "" then c.username ++ "@" else "")
    ++ c.jump_host
    ++ (if c.jump_port ≠ 22 then " -p " ++ toString c.jump_port else "")
    ++ (match c.key with
        | some k => " -i " ++ env.expandpath k
        | none => "")
    ++ String.join (c.forwardings.map (fun f => " -L " ++ f.toStr))
    ++ " -N"

/-- A configuration whose two forwardings share local port 8080. -/
def dupPortCfg : Config :=
  ⟨"example.com", "", 22, none, [⟨8080, "alpha", 80, ""⟩, ⟨8080, "beta", 81, ""⟩]⟩

/-- The end-to-end example configuration of the spec (§8). -/
def specCfg : Config :=
  ⟨"10.0.0.5", "alice", 22, some "/keys/id_rsa", [⟨8080, "internal-web", 80, "web"⟩]⟩

/-- An encrypted key file: `good` decrypts it, everything else fails. -/
def keyfileEncrypted : Option String → ParseResult
  | none => .passwordRequired
  | some p => if p == "good" then .ok ⟨7⟩ else .sshError

/-- World for a malformed key file: every parse raises `SSHException`. -/
def wBadFormat : World :=
  ⟨fun _ => .sshError, .found "irrelevant", .success, fun _ => .pwd "irrelevant"⟩

/-- World where the keyring is empty and the user always types a wrong
passphrase. -/
def wAllWrong : World :=
  ⟨keyfileEncrypted, .absent, .success, fun _ => .pwd "bad"⟩

/-- World where the keyring is empty and the user types a wrong passphrase
first, then the correct one. -/
def wSecondRight : World :=
  ⟨keyfileEncrypted, .absent, .success, fun i => if i == 0 then .pwd "bad" else .pwd "good"⟩

/-- Like `wSecondRight` but the correct passphrase comes on the first prompt
and the keyring backend is unavailable for storing. -/
def wStoreFails : World :=
  ⟨keyfileEncrypted, .absent, .unavailable, fun _ => .pwd "good"⟩

/-! ## Theorems -/

/-- C1 (counterexample): the claim says configurations with duplicate
`local_port` values fail `Config.validate`; in fact `dupPortCfg` has two
mappings with local port 8080 and `Config.validate` succeeds on it (and hence
`Config.load`, which checks a loaded config only through `validate`, would
accept it too). -/
theorem validate_accepts_dup_local_ports :
    hasDupLocalPorts dupPortCfg.forwardings = true ∧
    Config.validate env0 dupPortCfg = Except.ok () :=
  ⟨rfl, rfl⟩

/-- C1 (amended): `Config.validate` never inspects `forwardings` at all —
replacing the forwardings of any configuration (in particular by a list with
duplicate `local_port` values) never changes the validation result, so
duplicate local ports are not rejected as a configuration error. -/
theorem validate_ignores_forwardings (env : Env) (c : Config) (fs : List ForwardedPort) :
    Config.validate env { c with forwardings := fs } = Config.validate env c := rfl

/-- C4: when the very first parse of the key file raises a plain
`SSHException` (malformed key format, not a missing passphrase), `load_key`
fails terminally: it returns no key, never calls `keyring.get_password`, never
shows the password dialog, and stores nothing. -/
theorem load_key_invalid_format_terminal (w : World)
    (h : w.fromPrivateKeyFile none = .sshError) :
    load_key w = ⟨none, 0, none, 0⟩ := by
  unfold load_key
  rw [h]

/-- C4 witness: the malformed-key world. -/
theorem load_key_invalid_format_terminal_witness :
    load_key wBadFormat = ⟨none, 0, none, 0⟩ :=
  load_key_invalid_format_terminal wBadFormat rfl

/-- One prompt-loop iteration whose entered passphrase fails to decrypt the
key just moves on to the next attempt. -/
theorem promptLoop_step_wrong (w : World) (fuel calls kg : Nat) (p : String)
    (hp : w.prompts calls = .pwd p)
    (hk : ∀ k, w.fromPrivateKeyFile (some p) ≠ .ok k) :
    promptLoop w (fuel + 1) calls kg = promptLoop w fuel (calls + 1) kg := by
  cases hx : w.fromPrivateKeyFile (some p) with
  | ok k => exact absurd hx (hk k)
  | passwordRequired => simp [promptLoop, hp, hx]
  | sshError => simp [promptLoop, hp, hx]

/-- If all three prompted passphrases fail to decrypt the key, the prompt
loop ends with no key after exactly 3 prompts. -/
theorem promptLoop_all_wrong (w : World) (kg : Nat)
    (hw : ∀ i, i < 3 → ∃ p, w.prompts i = .pwd p ∧ ∀ k, w.fromPrivateKeyFile (some p) ≠ .ok k) :
    promptLoop w 3 0 kg = ⟨none, 3, none, kg⟩ := by
  obtain ⟨p0, hp0, hk0⟩ := hw 0 (by norm_num)
  obtain ⟨p1, hp1, hk1⟩ := hw 1 (by norm_num)
  obtain ⟨p2, hp2, hk2⟩ := hw 2 (by norm_num)
  calc promptLoop w 3 0 kg
      = promptLoop w 2 1 kg := promptLoop_step_wrong w 2 0 kg p0 hp0 hk0
    _ = promptLoop w 1 2 kg := promptLoop_step_wrong w 1 1 kg p1 hp1 hk1
    _ = promptLoop w 0 3 kg := promptLoop_step_wrong w 0 2 kg p2 hp2 hk2
    _ = ⟨none, 3, none, kg⟩ := rfl

/-- One prompt-loop iteration whose entered passphrase decrypts the key
returns it, after a best-effort keyring store. -/
theorem promptLoop_step_right (w : World) (fuel calls kg : Nat) (p : String) (k : RSAKey)
    (hp : w.prompts calls = .pwd p)
    (hk : w.fromPrivateKeyFile (some p) = .ok k) :
    promptLoop w (fuel + 1) calls kg = ⟨some k, calls + 1, setPasswordCaught w p, kg⟩ := by
  simp [promptLoop, hp, hk]

/-- With an encrypted key and no usable cached secret, `load_key` always
falls through to the 3-attempt prompt loop (after exactly one keyring
lookup). -/
theorem load_key_prompt_path (w : World)
    (h0 : w.fromPrivateKeyFile none = .passwordRequired)
    (hc : noUsableCache w) :
    load_key w = promptLoop w 3 0 1 := by
  simp only [load_key, h0]
  cases hg : w.keyringGet with
  | unavailable => rfl
  | absent => rfl
  | found p =>
    have hcp : ∀ k, w.fromPrivateKeyFile (some p) ≠ .ok k := by
      unfold noUsableCache at hc
      rwa [hg] at hc
    cases hx : w.fromPrivateKeyFile (some p) with
    | ok k => exact absurd hx (hcp k)
    | passwordRequired => simp [hx]
    | sshError => simp [hx]

/-- C3: for a passphrase-protected key with no usable cached secret, if every
prompted passphrase is wrong, `load_key` shows the password dialog exactly 3
times and then fails (returns no key) — there is never a 4th prompt. -/
theorem load_key_three_wrong_prompts (w : World)
    (h0 : w.fromPrivateKeyFile none = .passwordRequired)
    (hc : noUsableCache w)
    (hw : ∀ i, i < 3 → ∃ p, w.prompts i = .pwd p ∧ ∀ k, w.fromPrivateKeyFile (some p) ≠ .ok k) :
    (load_key w).key = none ∧ (load_key w).promptCalls = 3 := by
  rw [load_key_prompt_path w h0 hc, promptLoop_all_wrong w 1 hw]
  exact ⟨rfl, rfl⟩

/-- C3 witness: the always-wrong world. -/
theorem load_key_three_wrong_prompts_witness :
    (load_key wAllWrong).key = none ∧ (load_key wAllWrong).promptCalls = 3 :=
  load_key_three_wrong_prompts wAllWrong rfl trivial
    (fun i _ => ⟨"bad", rfl, fun k h => by simp [wAllWrong, keyfileEncrypted] at h⟩)

/-- C5: a wrong passphrase on the 1st prompt and the right one on the 2nd
make `load_key` succeed after exactly 2 prompts and store the passphrase in
the keyring; a subsequent `load_key` whose keyring lookup finds that stored
passphrase succeeds with zero prompts. -/
theorem load_key_second_prompt_caches (w : World) (p0 p1 : String) (k : RSAKey)
    (h0 : w.fromPrivateKeyFile none = .passwordRequired)
    (hc : noUsableCache w)
    (hp0 : w.prompts 0 = .pwd p0)
    (hw0 : ∀ k2, w.fromPrivateKeyFile (some p0) ≠ .ok k2)
    (hp1 : w.prompts 1 = .pwd p1)
    (hok : w.fromPrivateKeyFile (some p1) = .ok k)
    (hset : w.keyringSet = .success) :
    (load_key w).key = some k ∧ (load_key w).promptCalls = 2 ∧
      (load_key w).stored = some p1 ∧
      (load_key { w with keyringGet := .found p1 }).key = some k ∧
      (load_key { w with keyringGet := .found p1 }).promptCalls = 0 := by
  have e1 : load_key w = promptLoop w 2 1 1 := by
    rw [load_key_prompt_path w h0 hc]
    exact promptLoop_step_wrong w 2 0 1 p0 hp0 hw0
  have e2 : promptLoop w 2 1 1 = ⟨some k, 2, setPasswordCaught w p1, 1⟩ :=
    promptLoop_step_right w 1 1 1 p1 k hp1 hok
  have hfirst : load_key w = ⟨some k, 2, some p1, 1⟩ := by
    rw [e1, e2]
    unfold setPasswordCaught
    rw [hset]
  have hsecond : load_key { w with keyringGet := .found p1 } = ⟨some k, 0, none, 1⟩ := by
    simp only [load_key, h0, hok]
  rw [hfirst, hsecond]
  exact ⟨rfl, rfl, rfl, rfl, rfl⟩

/-- C5 witness: wrong then right passphrase. -/
theorem load_key_second_prompt_caches_witness :
    (load_key wSecondRight).key = some ⟨7⟩ ∧ (load_key wSecondRight).promptCalls = 2 ∧
      (load_key wSecondRight).stored = some "good" ∧
      (load_key { wSecondRight with keyringGet := .found "good" }).key = some ⟨7⟩ ∧
      (load_key { wSecondRight with keyringGet := .found "good" }).promptCalls = 0 :=
  load_key_second_prompt_caches wSecondRight "bad" "good" ⟨7⟩ rfl trivial rfl
    (fun k2 h => by simp [wSecondRight, keyfileEncrypted] at h) rfl rfl rfl

/-- C6: when storing the correct prompted passphrase fails because the
keyring backend is unavailable or locked, the failure is swallowed:
`load_key` still returns the decrypted key (after a single prompt here) and
nothing is stored — no storage error propagates. -/
theorem load_key_store_failure_swallowed (w : World) (p : String) (k : RSAKey)
    (h0 : w.fromPrivateKeyFile none = .passwordRequired)
    (hc : noUsableCache w)
    (hp0 : w.prompts 0 = .pwd p)
    (hok : w.fromPrivateKeyFile (some p) = .ok k)
    (hset : w.keyringSet = .unavailable) :
    (load_key w).key = some k ∧ (load_key w).stored = none := by
  have e1 : load_key w = promptLoop w 3 0 1 := load_key_prompt_path w h0 hc
  have e2 : promptLoop w 3 0 1 = ⟨some k, 1, setPasswordCaught w p, 1⟩ :=
    promptLoop_step_right w 2 0 1 p k hp0 hok
  have hres : load_key w = ⟨some k, 1, none, 1⟩ := by
    rw [e1, e2]
    unfold setPasswordCaught
    rw [hset]
  rw [hres]
  exact ⟨rfl, rfl⟩

/-- C6 witness: correct passphrase, unavailable keyring backend. -/
theorem load_key_store_failure_swallowed_witness :
    (load_key wStoreFails).key = some ⟨7⟩ ∧ (load_key wStoreFails).stored = none :=
  load_key_store_failure_swallowed wStoreFails "good" ⟨7⟩ rfl trivial rfl rfl rfl

/-- C9: while a connection exists, each `check_connection` poll either finds
the tunnel alive and re-schedules itself after the fixed 100 ms interval with
the state unchanged, or finds it dead and then — without any explicit stop
call from the caller — stops the tunnel, clears `self.connection`, schedules
no further poll, makes the controller-level liveness query report false, and
leaves every subsequent poll a no-op. -/
theorem check_connection_auto_disconnect (s : AppState) (c : TunnelConn)
    (h : s.connection = some c) :
    (c.is_alive = true → App.check_connection s = ⟨s, some 100⟩) ∧
    (c.is_alive = false →
      (App.check_connection s).state.connection = none ∧
      (App.check_connection s).state.stopCalls = s.stopCalls + 1 ∧
      (App.check_connection s).reschedAfterMs = none ∧
      App.aliveQuery (App.check_connection s).state = false ∧
      App.check_connection (App.check_connection s).state = ⟨(App.check_connection s).state, none⟩) := by
  constructor <;> intro ha <;>
    simp [App.check_connection, App.on_disconnect, App.aliveQuery, h, ha]

/-- C9 witness: a dead tunnel is stopped and cleared by the poll itself. -/
theorem check_connection_auto_disconnect_witness :
    (App.check_connection ⟨some ⟨false⟩, 0, false⟩).state.connection = none ∧
    (App.check_connection ⟨some ⟨false⟩, 0, false⟩).state.stopCalls = 0 + 1 ∧
    (App.check_connection ⟨some ⟨false⟩, 0, false⟩).reschedAfterMs = none ∧
    App.aliveQuery (App.check_connection ⟨some ⟨false⟩, 0, false⟩).state = false ∧
    App.check_connection (App.check_connection ⟨some ⟨false⟩, 0, false⟩).state
      = ⟨(App.check_connection ⟨some ⟨false⟩, 0, false⟩).state, none⟩ :=
  (check_connection_auto_disconnect ⟨some ⟨false⟩, 0, false⟩ ⟨false⟩ rfl).2 rfl

/-- A successful `Config.validate` with a set key implies the (expanded) key
path names an existing file. -/
theorem validate_ok_key (env : Env) (c : Config) (k : String)
    (hv : Config.validate env c = .ok ()) (hk : c.key = some k) :
    env.isfile (env.expandpath k) = true := by
  unfold Config.validate at hv
  split at hv
  · exact absurd hv (by simp)
  · split at hv
    · exact absurd hv (by simp)
    · split at hv
      · exact absurd hv (by simp)
      · split at hv
        · rename_i k2 hk2
          rw [hk] at hk2
          injection hk2 with hkk
          subst hkk
          split at hv
          · assumption
          · exact absurd hv (by simp)
        · rename_i hnone
          rw [hk] at hnone
          exact absurd hnone (by simp)

/-- C7: for every configuration accepted by `Config.validate` (in an
environment where the empty path is not a file), the rendered SSH command
`Config.__str__` is exactly the string the spec describes: `ssh `, then
`username@` iff the username is non-empty, the jump host, ` -p <port>` iff
the jump port is not 22, ` -i <expanded key path>` iff a key is set, one
` -L local:host:remote` segment per forwarding in order, and a final ` -N`. -/
theorem toStr_matches_claim (env : Env) (c : Config)
    (hv : Config.validate env c = .ok ())
    (hfile : env.isfile (env.expandpath "") = false) :
    Config.toStr env c = claimCmdString env c := by
  cases hk : c.key with
  | none => simp [Config.toStr, claimCmdString, hk]
  | some k =>
    have hkne : k ≠ "" := by
      intro he
      subst he
      rw [validate_ok_key env c "" hv hk] at hfile
      exact Bool.noConfusion hfile
    simp [Config.toStr, claimCmdString, hk, hkne]

/-- C7 witness: the end-to-end example configuration of the spec. -/
theorem toStr_matches_claim_witness :
    Config.toStr env1 specCfg = claimCmdString env1 specCfg :=
  toStr_matches_claim env1 specCfg (by rfl) rfl

/-- A full match of the IPv4 pattern is in particular a search hit (a match
starting at position 0). -/
theorem ipv4Search_of_fullmatch (s : String) (h : ipv4Fullmatch s = true) :
    ipv4Search s = true := by
  unfold ipv4Fullmatch at h
  unfold ipv4Search
  rw [List.any_eq_true]
  refine ⟨0, List.mem_range.mpr (Nat.succ_pos _), ?_⟩
  rw [List.drop_zero]
  unfold matchQuadFrom
  rw [List.any_eq_true] at h ⊢
  obtain ⟨r2, hm2, h2⟩ := h
  refine ⟨r2, hm2, ?_⟩
  rw [List.any_eq_true] at h2 ⊢
  obtain ⟨r3, hm3, h3⟩ := h2
  refine ⟨r3, hm3, ?_⟩
  rw [List.any_eq_true] at h3 ⊢
  obtain ⟨r4, hm4, h4⟩ := h3
  refine ⟨r4, hm4, ?_⟩
  rw [List.any_eq_true] at h4
  obtain ⟨r5, hm5, _⟩ := h4
  cases hmo : matchOct r4 with
  | nil => rw [hmo] at hm5; cases hm5
  | cons x xs => simp [List.isEmpty]

/-- C8 (counterexample): `a1.2.3.4` is a non-empty string and not an IPv4
literal (the pattern does not match the whole string), yet `is_hostname`
rejects it, because the pattern is *found inside* it — contradicting the
claim that every non-empty non-IPv4-literal string passes validation. -/
theorem is_hostname_rejects_embedded_quad :
    ("a1.2.3.4" ≠ "") ∧ ipv4Fullmatch "a1.2.3.4" = false ∧
      exceptOk (is_hostname "a1.2.3.4") = false := by
  refine ⟨by decide, by decide, by decide⟩

/-- C8 (amended): `is_hostname` accepts every non-empty string in which the
IPv4 pattern is not found anywhere, and every full IPv4 literal whose octets
are all at most 255; it rejects the empty string, and rejects every string
that contains an IPv4-like dotted quad without being a valid full IPv4
literal — both strings the pattern only matches somewhere inside, and full
pattern matches with an octet above 255. -/
theorem is_hostname_characterization (s : String) :
    (s ≠ "" → ipv4Search s = false → is_hostname s = .ok ()) ∧
    (ipv4Fullmatch s = true → (ipv4Groups s).any (fun x => 255 < x) = false →
      is_hostname s = .ok ()) ∧
    (s ≠ "" → ipv4Search s = true → ipv4Fullmatch s = false →
      exceptOk (is_hostname s) = false) ∧
    (ipv4Fullmatch s = true → (ipv4Groups s).any (fun x => 255 < x) = true →
      exceptOk (is_hostname s) = false) ∧
    is_hostname "" = .error "Remote hostname must not be empty" := by
  refine ⟨?_, ?_, ?_, ?_, rfl⟩
  · intro h1 h2
    simp [is_hostname, h1, h2]
  · intro hf hoct
    have hs : s ≠ "" := by
      intro he
      subst he
      exact Bool.noConfusion hf
    simp [is_hostname, hs, ipv4Search_of_fullmatch s hf, hf, hoct]
  · intro h1 h2 h3
    simp [is_hostname, exceptOk, h1, h2, h3]
  · intro hf hoct
    have hs : s ≠ "" := by
      intro he
      subst he
      exact Bool.noConfusion hf
    simp [is_hostname, exceptOk, hs, ipv4Search_of_fullmatch s hf, hf, hoct]

/-- C8 witness: a plain hostname and a valid IPv4 literal are accepted, and a
full dotted quad with an octet above 255 is rejected. -/
theorem is_hostname_characterization_witness :
    is_hostname "example.com" = .ok () ∧ is_hostname "10.0.0.5" = .ok () ∧
      exceptOk (is_hostname "256.1.1.1") = false :=
  ⟨(is_hostname_characterization "example.com").1 (by decide) (by decide),
   (is_hostname_characterization "10.0.0.5").2.1 (by decide) (by decide),
   (is_hostname_characterization "256.1.1.1").2.2.2.1 (by decide) (by decide)⟩

/-- Applying `setOpt` for an option other than `-L` leaves the collected `-L` list
unchanged. -/
theorem setOpt_L_of_ne (a : ParsedArgs) (c : Char) (v : String)
    (hc : (c == 'L') = false) :
    (a.setOpt c v).L = a.L := by
  unfold ParsedArgs.setOpt
  by_cases hi : (c == 'i') = true
  · rw [if_pos hi]
  · rw [if_neg hi, if_neg (by simp [hc])]
    cases pyInt? v <;> rfl

/-- Running `consumeShort` on a character run that is not `N*L…` neither touches the
collected `-L` list nor leaves an `-L` option waiting for its value. -/
theorem consumeShort_L (cs : List Char) : ∀ (a a2 : ParsedArgs) (oc : Char),
    lAfterNs cs = false →
    (consumeShort a cs = .done a2 → a2.L = a.L) ∧
    (consumeShort a cs = .needValue a2 oc → a2.L = a.L ∧ (oc == 'L') = false) := by
  induction cs with
  | nil =>
    intro a a2 oc _
    constructor
    · intro he
      injection he with h1
      rw [← h1]
    · intro he
      exact ShortResult.noConfusion he
  | cons c cs ih =>
    intro a a2 oc h
    unfold consumeShort
    by_cases hN : (c == 'N') = true
    · have h2 : lAfterNs cs = false := by
        unfold lAfterNs at h
        rwa [if_pos hN] at h
      rw [if_pos hN]
      exact ih _ a2 oc h2
    · have hL : (c == 'L') = false := by
        unfold lAfterNs at h
        rwa [if_neg hN] at h
      rw [if_neg hN]
      by_cases hk : (c == 'i' || c == 'L' || c == 'p') = true
      · rw [if_pos hk]
        cases cs with
        | nil =>
          constructor
          · intro he
            exact ShortResult.noConfusion he
          · intro he
            injection he with h1 h2
            rw [← h1, ← h2]
            exact ⟨rfl, hL⟩
        | cons c2 cs2 =>
          constructor
          · intro he
            injection he with h1
            rw [← h1]
            exact setOpt_L_of_ne a c _ hL
          · intro he
            exact ShortResult.noConfusion he
      · rw [if_neg hk]
        constructor
        · intro he
          injection he with h1
          rw [← h1]
        · intro he
          exact ShortResult.noConfusion he

/-- A token that is not an `-L` occurrence neither touches the collected `-L`
list nor leaves an `-L` option waiting for its value. -/
theorem stepToken_L (a a2 : ParsedArgs) (t : String) (oc : Char)
    (h : isLActivating t = false) :
    (stepToken a t = .push a2 → a2.L = a.L) ∧
    (stepToken a t = .need a2 oc → a2.L = a.L ∧ (oc == 'L') = false) := by
  cases ht : t.toList with
  | nil =>
    simp only [stepToken, ht]
    constructor
    · intro he
      injection he with h1
      rw [← h1]
    · intro he
      exact TokStep.noConfusion he
  | cons c cs =>
    simp only [isLActivating, ht] at h
    cases cs with
    | nil =>
      simp only [stepToken, ht]
      constructor
      · intro he
        by_cases hdash : (c == '-') = true
        · rw [if_pos hdash] at he
          injection he with h1
          rw [← h1]
        · rw [if_neg hdash] at he
          injection he with h1
          rw [← h1]
      · intro he
        by_cases hdash : (c == '-') = true
        · rw [if_pos hdash] at he
          exact TokStep.noConfusion he
        · rw [if_neg hdash] at he
          exact TokStep.noConfusion he
    | cons c2 cs2 =>
      by_cases hdash : (c == '-') = true
      · have hla : lAfterNs (c2 :: cs2) = false := by
          rw [hdash] at h
          simpa using h
        simp only [stepToken, ht]
        rw [if_pos hdash]
        by_cases hneg : isNegNumber t = true
        · rw [if_pos hneg]
          constructor
          · intro he
            injection he with h1
            rw [← h1]
          · intro he
            exact TokStep.noConfusion he
        · rw [if_neg hneg]
          by_cases hk : (c2 == 'N' || c2 == 'i' || c2 == 'L' || c2 == 'p') = true
          · rw [if_pos hk]
            cases hcs : consumeShort a (c2 :: cs2) with
            | done a3 =>
              constructor
              · intro he
                injection he with h1
                rw [← h1]
                exact (consumeShort_L (c2 :: cs2) a a3 oc hla).1 hcs
              · intro he
                exact TokStep.noConfusion he
            | needValue a3 oc3 =>
              constructor
              · intro he
                exact TokStep.noConfusion he
              · intro he
                injection he with h1 h2
                rw [← h1, ← h2]
                exact (consumeShort_L (c2 :: cs2) a a3 oc3 hla).2 hcs
          · rw [if_neg hk]
            constructor
            · intro he
              injection he with h1
              rw [← h1]
            · intro he
              exact TokStep.noConfusion he
      · simp only [stepToken, ht]
        rw [if_neg hdash]
        constructor
        · intro he
          injection he with h1
          rw [← h1]
        · intro he
          exact TokStep.noConfusion he

/-- When no token of the list is an `-L` option occurrence, the parse loop
leaves the `-L` accumulator exactly as it started. -/
theorem parseLoop_L (n : Nat) : ∀ (ts : List String) (a : ParsedArgs),
    ts.length ≤ n →
    ts.all (fun t => !(isLActivating t)) = true →
    (parseLoop ts a).L = a.L := by
  induction n with
  | zero =>
    intro ts a hlen _
    cases ts with
    | nil => rfl
    | cons t ts => exact absurd hlen (by simp)
  | succ n ih =>
    intro ts a hlen hall
    cases ts with
    | nil => rfl
    | cons t ts =>
      rw [List.all_cons] at hall
      obtain ⟨ht0, hts⟩ := (Bool.and_eq_true _ _).mp hall
      have ht : isLActivating t = false := by
        simpa using ht0
      have hlen2 : ts.length ≤ n := by
        simp only [List.length_cons] at hlen
        omega
      unfold parseLoop
      by_cases hdd : (t == "--") = true
      · rw [if_pos hdd]
      · rw [if_neg hdd]
        cases hst : stepToken a t with
        | push a3 =>
          have h3 : a3.L = a.L := (stepToken_L a a3 t 'A' ht).1 hst
          show (parseLoop ts a3).L = a.L
          rw [ih ts a3 hlen2 hts]
          exact h3
        | need a3 oc =>
          obtain ⟨h3, hoc⟩ := (stepToken_L a a3 t oc ht).2 hst
          cases ts with
          | nil => exact h3
          | cons v ts2 =>
            show (if looksLikeOption v = true then { a3 with err := true }
                  else parseLoop ts2 (a3.setOpt oc v)).L = a.L
            by_cases hlo : looksLikeOption v = true
            · rw [if_pos hlo]
              exact h3
            · rw [if_neg hlo]
              have hlen3 : ts2.length ≤ n := by
                simp only [List.length_cons] at hlen2
                omega
              have hts2 : ts2.all (fun t => !(isLActivating t)) = true := by
                rw [List.all_cons] at hts
                exact ((Bool.and_eq_true _ _).mp hts).2
              rw [ih ts2 (a3.setOpt oc v) hlen3 hts2, setOpt_L_of_ne a3 oc v hoc]
              exact h3

/-- C10: a command line whose tokens contain no `-L` option makes
`Config.from_cmd` fail with an exception — either an argparse error or the
`TypeError` from iterating `args.L` when it is `None` — and never return a
`Config`; so `from_cmd` returns a configuration only for commands carrying at
least one `-L` argument. -/
theorem from_cmd_requires_L (env : Env) (cmd : String)
    (h : (shlexSplit cmd).all (fun t => !(isLActivating t)) = true) :
    ∀ c, Config.from_cmd env cmd ≠ Except.ok c := by
  intro c hok
  have hL : (parseLoop (shlexSplit cmd) {}).L = none :=
    parseLoop_L (shlexSplit cmd).length (shlexSplit cmd) {} le_rfl h
  simp only [Config.from_cmd] at hok
  simp only [hL] at hok
  by_cases he : (parseLoop (shlexSplit cmd) {}).err = true
  · rw [if_pos he] at hok
    exact Except.noConfusion hok
  · rw [if_neg he] at hok
    cases hp : (parseLoop (shlexSplit cmd) {}).positionals with
    | nil =>
      rw [hp] at hok
      exact Except.noConfusion hok
    | cons x xs =>
      cases xs with
      | nil =>
        rw [hp] at hok
        exact Except.noConfusion hok
      | cons y ys =>
        rw [hp] at hok
        exact Except.noConfusion hok

/-- C10 witness: a command without any `-L` option is rejected. -/
theorem from_cmd_requires_L_witness :
    Config.from_cmd env0 "ssh alice@host" ≠ Except.ok ⟨"host", "alice", 22, none, []⟩ :=
  from_cmd_requires_L env0 "ssh alice@host" (by decide) ⟨"host", "alice", 22, none, []⟩

end Forwardingtool
